import Mathlib

/-!
Verification of the Mongo-backed vector collection
(`sports-llm/mongo_vector_collection.py`).

Shallow embedding conventions:
* the backing MongoDB collection is a list of `StoredDoc` in insertion /
  scan order;
* Python floats are modelled as real numbers; the only float values the
  module manipulates are list elements, dot products, Euclidean norms and
  the derived cosine distances;
* `uuid.uuid4()` is an injected generator stream `gen : Nat -> String`;
* the bound embedding function is an optional `String -> List Real` (its
  `encode` method returns a numpy array);
* exceptions are modelled with `Except VCError`; an error outcome means the
  exception was raised before the store write / result return was reached.
-/

set_option maxHeartbeats 1000000

namespace VectorDB

/-- Metadata mapping of a stored record: an association list of string keys
to string values (the module only ever compares metadata values for
equality). -/
abbrev Metadata := List (String × String)

/-- A document held in the backing collection, with exactly the fields the
module reads or writes: `add` writes `_id`, `text`, `embedding` and
`metadata` (lines 40-45); `query` additionally consults an optional
`document` field when a `where_document` filter is given (line 82).
`embedding` is optional because `query` tolerates records (written by other
tools) that lack the field (lines 100-101), and `document` is optional
because no record written by `add` carries that field. -/
structure StoredDoc where
  _id : String
  text : String
  embedding : Option (List ℝ)
  metadata : Metadata
  document : Option String

/-- Error outcomes: `invalidArgument` models the `ValueError` raised when a
required alternative input is missing (lines 21 and 63), `missingDependency`
the `ValueError` "No embedding function provided" (lines 26 and 60), and
`attributeError` the Python `AttributeError` raised by `embedding.tolist()`
when `embedding` is a plain Python list rather than a numpy array (line
43). -/
inductive VCError where
  | invalidArgument
  | missingDependency
  | attributeError
deriving DecidableEq

/-- A sequence of floats as a Python runtime value: either a numpy `ndarray`
(what `embedding_function.encode` returns) or a plain Python list of floats
(the declared type of the `embeddings` parameter, `List[List[float]]`). -/
inductive PyFloatSeq where
  | ndarray (v : List ℝ)
  | pylist (v : List ℝ)

/-- The `tolist()` attribute lookup of line 43: numpy arrays expose
`tolist`, a plain Python list does not, so calling it there raises
`AttributeError`. -/
def PyFloatSeq.tolist : PyFloatSeq → Option (List ℝ)
  | .ndarray v => some v
  | .pylist _ => none

/-- Four-way zip: the semantics of Python
`zip(documents, embeddings, metadatas, ids)` at line 39, truncating to the
shortest input. -/
def zip4 {α β γ δ : Type} : List α → List β → List γ → List δ → List (α × β × γ × δ)
  | a :: as, b :: bs, c :: cs, d :: ds => (a, b, c, d) :: zip4 as bs cs ds
  | _, _, _, _ => []

/-- The loop of lines 38-46 building `docs_to_insert`: each element calls
`embedding.tolist()`, which raises `AttributeError` on a plain list,
aborting the call before anything is handed to the store. -/
def buildBatch : List (String × PyFloatSeq × Metadata × String) → Except VCError (List StoredDoc)
  | [] => .ok []
  | (doc, emb, md, did) :: rest =>
    match emb.tolist with
    | none => .error .attributeError
    | some v =>
      match buildBatch rest with
      | .error e => .error e
      | .ok batch => .ok (⟨did, doc, some v, md, none⟩ :: batch)

/-- The length of Python `(documents or embeddings)` at lines 30 and 33:
`documents` when it is truthy (present and non-empty), otherwise
`embeddings` (which is always non-`None` by that point). -/
def orSeqLength (documents : Option (List String)) (embs : List PyFloatSeq) : ℕ :=
  match documents with
  | none => embs.length
  | some ds => if ds.isEmpty then embs.length else ds.length

/-- The documents passed to `embedding_function.encode`, one call per
element, by the comprehension at line 27 (no call happens when `embeddings`
was supplied). -/
def encodedDocuments (documents : Option (List String))
    (embeddings : Option (List PyFloatSeq)) : List String :=
  match embeddings, documents with
  | none, some ds => ds
  | _, _ => []

/-- `MongoVectorCollection.add` (lines 13-47), returning the batch handed to
`collection.insert_many` (line 47), or the error raised before the store is
reached.  `ef` is the bound embedding function; `gen` supplies the
`uuid.uuid4()` stream of line 30. -/
def MongoVectorCollection.add (ef : Option (String → List ℝ)) (gen : ℕ → String)
    (documents : Option (List String)) (embeddings : Option (List PyFloatSeq))
    (metadatas : Option (List Metadata)) (ids : Option (List String)) :
    Except VCError (List StoredDoc) :=
  if documents.isNone && embeddings.isNone then .error .invalidArgument
  else
    let embStep : Except VCError (List PyFloatSeq) :=
      if embeddings.isNone && documents.isSome then
        match ef with
        | none => .error .missingDependency
        | some f => .ok ((documents.getD []).map fun d => PyFloatSeq.ndarray (f d))
      else .ok (embeddings.getD [])
    match embStep with
    | .error e => .error e
    | .ok embs =>
      let count := orSeqLength documents embs
      let ids' := match ids with
        | none => (List.range count).map gen
        | some l => l
      let metadatas' := match metadatas with
        | none => List.replicate count ([] : Metadata)
        | some l => l
      let documents' := match documents with
        | none => List.replicate embs.length ""
        | some l => l
      buildBatch (zip4 documents' embs metadatas' ids')

/-- The effect of one `add` call on the backing collection: `insert_many`
appends the batch; an error raised earlier leaves the collection
untouched. -/
def MongoVectorCollection.addState (st : List StoredDoc) (ef : Option (String → List ℝ))
    (gen : ℕ → String) (documents : Option (List String))
    (embeddings : Option (List PyFloatSeq)) (metadatas : Option (List Metadata))
    (ids : Option (List String)) : List StoredDoc :=
  match MongoVectorCollection.add ef gen documents embeddings metadatas ids with
  | .ok batch => st ++ batch
  | .error _ => st

/-- Prefix test on character lists (helper for the substring semantics of
the case-insensitive regex filter). -/
def charsStartWith : List Char → List Char → Bool
  | _, [] => true
  | [], _ :: _ => false
  | a :: as, b :: bs => a == b && charsStartWith as bs

/-- Contiguous-substring test on character lists. -/
def charsContain : List Char → List Char → Bool
  | [], needle => needle.isEmpty
  | a :: t, needle => charsStartWith (a :: t) needle || charsContain t needle

/-- Case-insensitive substring test: the semantics of the MongoDB filter
`{"$regex": s, "$options": "i"}` built at line 82, for patterns without
regex metacharacters (the only shape exercised by the `$contains` form the
module supports). -/
def containsCI (hay needle : String) : Bool :=
  charsContain (hay.toList.map Char.toLower) (needle.toList.map Char.toLower)

/-- Mongo equality filter built from `where` (lines 74-77): a record matches
when every `metadata.key = value` pair holds of its metadata.  An absent or
empty `where` (Python falsy) adds no constraint, matching the `if where:`
guard. -/
def matchesWhere (whereFilter : Option Metadata) (d : StoredDoc) : Bool :=
  match whereFilter with
  | none => true
  | some kvs => kvs.all fun kv => d.metadata.lookup kv.1 == some kv.2

/-- The `where_document = \x7b"$contains": s\x7d` branch (lines 79-82): the
module targets the field named `document` with a case-insensitive regex, so
a record matches only if it carries that field and its value contains the
pattern. -/
def matchesWhereDocument (where_document : Option String) (d : StoredDoc) : Bool :=
  match where_document with
  | none => true
  | some s =>
    match d.document with
    | none => false
    | some t => containsCI t s

/-- The filtered scan `collection.find(mongo_filter)` of line 85, over the
backing collection in its deterministic scan order. -/
def findDocs (st : List StoredDoc) (whereFilter : Option Metadata)
    (where_document : Option String) : List StoredDoc :=
  st.filter fun d => matchesWhere whereFilter d && matchesWhereDocument where_document d

/-- The number of filtered candidates that carry an `embedding` field — the
records eligible for ranking. -/
def eligibleCount (st : List StoredDoc) (whereFilter : Option Metadata)
    (where_document : Option String) : ℕ :=
  ((findDocs st whereFilter where_document).filter fun d => d.embedding.isSome).length

/-- One entry of the `similarities` list (lines 113-118). -/
structure SimEntry where
  id : String
  distance : ℝ
  document : String
  metadata : Metadata

/-- Dot product of two vectors: `np.dot` on 1-D arrays of a common length
(line 106). -/
noncomputable def dotProduct (q v : List ℝ) : ℝ :=
  (List.zipWith (fun a b => a * b) q v).sum

/-- Euclidean norm, `np.linalg.norm` (line 107). -/
noncomputable def norm2 (v : List ℝ) : ℝ := Real.sqrt (dotProduct v v)

/-- The distance computed at lines 106-111:
`1 - q·v / (np.linalg.norm q * np.linalg.norm v)`. -/
noncomputable def codeDistance (q v : List ℝ) : ℝ :=
  1 - dotProduct q v / (norm2 q * norm2 v)

/-- The cosine similarity exactly as the spec words it (§4.2 step 2 and the
glossary): `(q·v) / (‖q‖ · ‖v‖)` with `‖x‖` the Euclidean norm
`sqrt (Σ xᵢ²)`. -/
noncomputable def cosine_similarity_spec (q v : List ℝ) : ℝ :=
  dotProduct q v /
    (Real.sqrt ((q.map fun x => x ^ 2).sum) * Real.sqrt ((v.map fun x => x ^ 2).sum))

/-- The similarity loop of lines 99-118: records without an `embedding`
field are skipped by the `continue`; every other candidate contributes one
entry, in scan order. -/
noncomputable def similarities (q : List ℝ) (docs : List StoredDoc) : List SimEntry :=
  docs.filterMap fun d =>
    match d.embedding with
    | none => none
    | some v => some ⟨d._id, codeDistance q v, d.text, d.metadata⟩

/-- The comparison used by line 121, `sort(key=lambda x: x['distance'])`:
ascending by distance; Python's sort is stable, as is `List.mergeSort`. -/
noncomputable def simLE (a b : SimEntry) : Bool := decide (a.distance ≤ b.distance)

/-- Per-query result columns (ids / distances / documents / metadatas), all
in rank order. -/
structure PerQuery where
  ids : List String
  distances : List ℝ
  documents : List String
  metadatas : List Metadata

/-- Lines 72-128 for a single query embedding: filter (line 85), the
empty-candidate shortcut (lines 88-93), score (lines 96-118), stable sort by
ascending distance (line 121), truncate to `n_results` (line 122), project
the four columns (lines 125-128). -/
noncomputable def queryOne (st : List StoredDoc) (whereFilter : Option Metadata)
    (where_document : Option String) (q : List ℝ) (n : ℕ) : PerQuery :=
  let docs := findDocs st whereFilter where_document
  if docs.isEmpty then ⟨[], [], [], []⟩
  else
    let top := ((similarities q docs).mergeSort simLE).take n
    ⟨top.map SimEntry.id, top.map SimEntry.distance,
     top.map SimEntry.document, top.map SimEntry.metadata⟩

/-- The batched result dictionary (lines 65-70 and the per-query appends):
one inner list per query, in input order. -/
structure QueryResults where
  ids : List (List String)
  distances : List (List ℝ)
  documents : List (List String)
  metadatas : List (List Metadata)

/-- The loop over `query_embeddings` (lines 72-128): each query appends one
inner list to each of the four columns. -/
noncomputable def runQueries (st : List StoredDoc) (whereFilter : Option Metadata)
    (where_document : Option String) (n : ℕ) (qs : List (List ℝ)) : QueryResults :=
  ⟨qs.map fun q => (queryOne st whereFilter where_document q n).ids,
   qs.map fun q => (queryOne st whereFilter where_document q n).distances,
   qs.map fun q => (queryOne st whereFilter where_document q n).documents,
   qs.map fun q => (queryOne st whereFilter where_document q n).metadatas⟩

/-- `MongoVectorCollection.query` (lines 49-130): `query_texts` is embedded
text-by-text when present (raising when no embedding function is bound,
lines 58-61); otherwise `query_embeddings` is required (lines 62-63). -/
noncomputable def MongoVectorCollection.query (ef : Option (String → List ℝ))
    (st : List StoredDoc) (query_texts : Option (List String))
    (query_embeddings : Option (List (List ℝ))) (n_results : ℕ)
    (whereFilter : Option Metadata) (where_document : Option String) :
    Except VCError QueryResults :=
  match query_texts with
  | some ts =>
    match ef with
    | none => .error .missingDependency
    | some f => .ok (runQueries st whereFilter where_document n_results (ts.map f))
  | none =>
    match query_embeddings with
    | none => .error .invalidArgument
    | some qs => .ok (runQueries st whereFilter where_document n_results qs)

/-! ### General lemmas about the embedded operations -/

theorem zip4_length {α β γ δ : Type} (as : List α) (bs : List β) (cs : List γ) (ds : List δ) :
    (zip4 as bs cs ds).length = min as.length (min bs.length (min cs.length ds.length)) := by
  induction as generalizing bs cs ds with
  | nil => simp [zip4]
  | cons a as ih =>
    cases bs with
    | nil => simp [zip4]
    | cons b bs =>
      cases cs with
      | nil => simp [zip4]
      | cons c cs =>
        cases ds with
        | nil => simp [zip4]
        | cons d ds =>
          simp only [zip4, List.length_cons, ih]
          omega

theorem buildBatch_ndarray (ds : List String) (vs : List (List ℝ)) (ms : List Metadata)
    (is_ : List String) :
    buildBatch (zip4 ds (vs.map PyFloatSeq.ndarray) ms is_)
      = .ok ((zip4 ds vs ms is_).map fun x =>
          ⟨x.2.2.2, x.1, some x.2.1, x.2.2.1, none⟩) := by
  induction ds generalizing vs ms is_ with
  | nil => simp [zip4, buildBatch]
  | cons a as ih =>
    cases vs with
    | nil => simp [zip4, buildBatch]
    | cons v vs =>
      cases ms with
      | nil => simp [zip4, buildBatch]
      | cons m ms =>
        cases is_ with
        | nil => simp [zip4, buildBatch]
        | cons i is_ =>
          simp only [List.map_cons, zip4, buildBatch, PyFloatSeq.tolist, ih]

theorem dotProduct_self (v : List ℝ) : dotProduct v v = (v.map fun x => x ^ 2).sum := by
  induction v with
  | nil => simp [dotProduct]
  | cons a as ih =>
    simp only [dotProduct, List.zipWith_cons_cons, List.sum_cons, List.map_cons] at ih ⊢
    rw [ih, pow_two]

theorem similarities_length (q : List ℝ) (docs : List StoredDoc) :
    (similarities q docs).length = (docs.filter fun d => d.embedding.isSome).length := by
  induction docs with
  | nil => simp [similarities]
  | cons d ds ih =>
    cases hd : d.embedding with
    | none => simpa [similarities, List.filterMap_cons, List.filter_cons, hd] using ih
    | some v => simpa [similarities, List.filterMap_cons, List.filter_cons, hd] using ih

theorem queryOne_ids_length (st : List StoredDoc) (w : Option Metadata) (wd : Option String)
    (q : List ℝ) (n : ℕ) :
    (queryOne st w wd q n).ids.length = min n (eligibleCount st w wd) := by
  by_cases h : (findDocs st w wd).isEmpty = true
  · have h0 : findDocs st w wd = [] := by simpa using h
    simp [queryOne, h, eligibleCount, h0]
  · simp [queryOne, h, eligibleCount, List.length_take, similarities_length]

theorem simLE_trans : ∀ a b c : SimEntry, simLE a b → simLE b c → simLE a c := by
  intro a b c hab hbc
  simp only [simLE, decide_eq_true_eq] at hab hbc ⊢
  exact le_trans hab hbc

theorem simLE_total : ∀ a b : SimEntry, simLE a b || simLE b a := by
  intro a b
  simp only [simLE, Bool.or_eq_true, decide_eq_true_eq]
  exact le_total _ _

theorem queryOne_distances_sorted (st : List StoredDoc) (w : Option Metadata)
    (wd : Option String) (q : List ℝ) (n : ℕ) :
    (queryOne st w wd q n).distances.Pairwise (fun a b : ℝ => a ≤ b) := by
  by_cases h : (findDocs st w wd).isEmpty = true
  · simp [queryOne, h]
  · have hs := List.sorted_mergeSort simLE_trans simLE_total
      (similarities q (findDocs st w wd))
    have hs' := hs.sublist (List.take_sublist n _)
    simp only [queryOne, h]
    rw [if_neg (by simp [h])]
    rw [List.pairwise_map]
    exact hs'.imp fun hab => by simpa [simLE] using hab

theorem queryOne_pairs_sub (st : List StoredDoc) (w : Option Metadata) (wd : Option String)
    (q : List ℝ) (n : ℕ) (p : String × ℝ)
    (hp : p ∈ ((queryOne st w wd q n).ids).zip ((queryOne st w wd q n).distances)) :
    ∃ d, d ∈ findDocs st w wd ∧ ∃ v, d.embedding = some v
      ∧ p.1 = d._id ∧ p.2 = codeDistance q v := by
  by_cases h : (findDocs st w wd).isEmpty = true
  · simp [queryOne, h] at hp
  · simp only [queryOne, h] at hp
    rw [if_neg (by simp [h])] at hp
    rw [List.zip_map'] at hp
    obtain ⟨e, he, rfl⟩ := List.mem_map.mp hp
    have he1 : e ∈ (similarities q (findDocs st w wd)).mergeSort simLE :=
      List.take_subset _ _ he
    have he2 : e ∈ similarities q (findDocs st w wd) := List.mem_mergeSort.mp he1
    obtain ⟨d, hd, hde⟩ := List.mem_filterMap.mp he2
    cases hv : d.embedding with
    | none => rw [hv] at hde; exact absurd hde (by simp)
    | some v =>
      rw [hv] at hde
      refine ⟨d, hd, v, hv, ?_, ?_⟩
      · rw [← Option.some.inj hde]
      · rw [← Option.some.inj hde]

theorem query_ok_runQueries (ef : Option (String → List ℝ)) (st : List StoredDoc)
    (qts : Option (List String)) (qes : Option (List (List ℝ))) (n : ℕ)
    (w : Option Metadata) (wd : Option String) (res : QueryResults)
    (h : MongoVectorCollection.query ef st qts qes n w wd = .ok res) :
    ∃ qs, res = runQueries st w wd n qs := by
  cases qts with
  | some ts =>
    cases ef with
    | none => exact Except.noConfusion h
    | some f => exact ⟨ts.map f, (Except.ok.inj h).symm⟩
  | none =>
    cases qes with
    | none => exact Except.noConfusion h
    | some qs => exact ⟨qs, (Except.ok.inj h).symm⟩

/-! ### Claims -/

/-- Claim C1: for every candidate record that carries an embedding `v`, the
distance reported by `query` for that record is `1 - cosine_similarity(q, v)`
with `cosine_similarity(q, v) = (q·v) / (‖q‖·‖v‖)` exactly as the spec words
it, and every candidate lacking an `embedding` field is skipped: each
(id, distance) pair of a per-query result arises from a filtered candidate
with an embedding, and its distance is the spec formula applied to that
embedding. -/
theorem claim_C1 :
    (∀ q v : List ℝ, codeDistance q v = 1 - cosine_similarity_spec q v)
    ∧ ∀ (st : List StoredDoc) (w : Option Metadata) (wd : Option String) (q : List ℝ)
        (n : ℕ) (p : String × ℝ),
        p ∈ ((queryOne st w wd q n).ids).zip ((queryOne st w wd q n).distances) →
        ∃ d, d ∈ findDocs st w wd ∧ ∃ v, d.embedding = some v
          ∧ p.1 = d._id ∧ p.2 = 1 - cosine_similarity_spec q v := by
  have formula : ∀ q v : List ℝ, codeDistance q v = 1 - cosine_similarity_spec q v := by
    intro q v
    unfold codeDistance cosine_similarity_spec norm2
    rw [dotProduct_self q, dotProduct_self v]
  refine ⟨formula, ?_⟩
  intro st w wd q n p hp
  obtain ⟨d, hd, v, hv, h1, h2⟩ := queryOne_pairs_sub st w wd q n p hp
  exact ⟨d, hd, v, hv, h1, h2.trans (formula q v)⟩

/-- Witness for claim C1: a one-record collection, queried with its own
embedding; the reported pair is traced back to the stored record and the
spec formula. -/
theorem claim_C1_witness :
    ∃ d, d ∈ findDocs [⟨"a", "hi", some [(1 : ℝ)], [], none⟩] none none
      ∧ ∃ v, d.embedding = some v
        ∧ ("a", codeDistance [(1 : ℝ)] [(1 : ℝ)]).1 = d._id
        ∧ ("a", codeDistance [(1 : ℝ)] [(1 : ℝ)]).2 = 1 - cosine_similarity_spec [(1 : ℝ)] v :=
  claim_C1.2 [⟨"a", "hi", some [(1 : ℝ)], [], none⟩] none none [(1 : ℝ)] 10
    ("a", codeDistance [(1 : ℝ)] [(1 : ℝ)])
    (by simp [queryOne, findDocs, matchesWhere, matchesWhereDocument, similarities])

/-- Claim C2: in every per-query result returned by `query`, the distances
are non-decreasing in rank order (here proved in the strong pairwise form,
which implies `distances[i] <= distances[i+1]` for every adjacent pair). -/
theorem claim_C2 (ef : Option (String → List ℝ)) (st : List StoredDoc)
    (qts : Option (List String)) (qes : Option (List (List ℝ))) (n : ℕ)
    (w : Option Metadata) (wd : Option String) (res : QueryResults)
    (h : MongoVectorCollection.query ef st qts qes n w wd = .ok res) :
    res.distances.Forall fun dl => dl.Pairwise (fun a b : ℝ => a ≤ b) := by
  obtain ⟨qs, rfl⟩ := query_ok_runQueries ef st qts qes n w wd res h
  rw [List.forall_iff_forall_mem]
  intro dl hdl
  simp only [runQueries] at hdl
  obtain ⟨q, hq, rfl⟩ := List.mem_map.mp hdl
  exact queryOne_distances_sorted st w wd q n

/-- Witness for claim C2 at a concrete query against an empty collection. -/
theorem claim_C2_witness :
    (QueryResults.mk [[]] [[]] [[]] [[]]).distances.Forall
      (fun dl => dl.Pairwise (fun a b : ℝ => a ≤ b)) :=
  claim_C2 none [] none (some [[(1 : ℝ)]]) 10 none none ⟨[[]], [[]], [[]], [[]]⟩ rfl

/-- Claim C3: every per-query result sequence of `query(..., n_results = k)`
has at most `k` elements, and has fewer than `k` only when the filtered
candidate set has fewer than `k` records eligible for ranking (records
carrying an embedding). -/
theorem claim_C3 (ef : Option (String → List ℝ)) (st : List StoredDoc)
    (qts : Option (List String)) (qes : Option (List (List ℝ))) (n : ℕ)
    (w : Option Metadata) (wd : Option String) (res : QueryResults)
    (h : MongoVectorCollection.query ef st qts qes n w wd = .ok res) :
    res.ids.Forall fun l => l.length ≤ n ∧ (l.length < n → eligibleCount st w wd < n) := by
  obtain ⟨qs, rfl⟩ := query_ok_runQueries ef st qts qes n w wd res h
  rw [List.forall_iff_forall_mem]
  intro l hl
  simp only [runQueries] at hl
  obtain ⟨q, hq, rfl⟩ := List.mem_map.mp hl
  rw [queryOne_ids_length]
  omega

/-- Witness for claim C3 at a concrete query against an empty collection. -/
theorem claim_C3_witness :
    (QueryResults.mk [[]] [[]] [[]] [[]]).ids.Forall
      (fun l => l.length ≤ 10 ∧ (l.length < 10 → eligibleCount [] none none < 10)) :=
  claim_C3 none [] none (some [[(1 : ℝ)]]) 10 none none ⟨[[]], [[]], [[]], [[]]⟩ rfl

/-- Claim C4: the spec says a raw-vector insert (`embeddings` supplied as
sequences of floats, `documents` omitted) succeeds and appends one record
per vector with empty text.  The code instead calls `embedding.tolist()`
(line 43) on each supplied vector: a plain Python list — the declared
parameter type `List[List[float]]` — has no `tolist` attribute, so the call
raises `AttributeError` before anything reaches the store.  This theorem
evaluates the code at the failing input. -/
theorem claim_C4 (ef : Option (String → List ℝ)) (gen : ℕ → String) :
    MongoVectorCollection.add ef gen none (some [PyFloatSeq.pylist [(1 : ℝ), 2]]) none none
      = .error .attributeError := rfl

/-- Claim C5: the spec says a `where_document = \x7b"$contains": s\x7d` filter
keeps exactly the stored records whose text contains `s` case-insensitively.
The code builds the regex filter on a field named `document` (line 82) while
`add` stores the text under the field `text` (line 42), so no record written
by `add` ever matches the filter.  Here a record whose text "Hello World"
does contain "hello" case-insensitively is nevertheless excluded: the
candidate set is empty and the query returns empty columns. -/
theorem claim_C5 :
    containsCI "Hello World" "hello" = true
    ∧ MongoVectorCollection.query none [⟨"a", "Hello World", some [(1 : ℝ)], [], none⟩]
        none (some [[(1 : ℝ)]]) 10 none (some "hello")
      = .ok ⟨[[]], [[]], [[]], [[]]⟩ :=
  ⟨rfl, rfl⟩

/-- Claim C6 counterexample: `add` with mismatched-length parallel sequences
(two documents and ids, one metadata mapping) does not fail with
`InvalidArgument`; the `zip` of line 39 silently truncates and one record is
inserted. -/
theorem claim_C6_cex :
    MongoVectorCollection.add (some fun _ => [(1 : ℝ)]) (fun _ => "g")
      (some ["a", "b"]) none (some [[("k", "v")]]) (some ["i1", "i2"])
      = .ok [⟨"i1", "a", some [(1 : ℝ)], [("k", "v")], none⟩] := rfl

/-- Claim C6 (amended): `add` with mismatched-length parallel sequences does
not raise; the batch handed to the store is truncated to the shortest
supplied sequence (`zip` semantics).  With embeddings auto-generated from
`documents`, the inserted batch has length
`min |documents| (min |metadatas| |ids|)`. -/
theorem claim_C6 (f : String → List ℝ) (gen : ℕ → String) (ds : List String)
    (ms : List Metadata) (is_ : List String) :
    ∃ batch,
      MongoVectorCollection.add (some f) gen (some ds) none (some ms) (some is_) = .ok batch
      ∧ batch.length = min ds.length (min ms.length is_.length) := by
  refine ⟨(zip4 ds (ds.map f) ms is_).map
      (fun x => ⟨x.2.2.2, x.1, some x.2.1, x.2.2.1, none⟩), ?_, ?_⟩
  · have h1 : (ds.map fun d => PyFloatSeq.ndarray (f d)) = (ds.map f).map PyFloatSeq.ndarray := by
      simp [List.map_map, Function.comp]
    have h2 : MongoVectorCollection.add (some f) gen (some ds) none (some ms) (some is_)
        = buildBatch (zip4 ds (ds.map fun d => PyFloatSeq.ndarray (f d)) ms is_) := rfl
    rw [h2, h1, buildBatch_ndarray]
  · rw [List.length_map, zip4_length, List.length_map]
    omega

/-- Claim C7: `add` with both `documents` and `embeddings` absent raises
`InvalidArgument` (line 21) and leaves the collection unchanged, and `query`
with both `query_texts` and `query_embeddings` absent raises
`InvalidArgument` (line 63). -/
theorem claim_C7 (ef : Option (String → List ℝ)) (gen : ℕ → String)
    (metadatas : Option (List Metadata)) (ids : Option (List String))
    (st : List StoredDoc) (n : ℕ) (w : Option Metadata) (wd : Option String) :
    MongoVectorCollection.add ef gen none none metadatas ids = .error .invalidArgument
    ∧ MongoVectorCollection.addState st ef gen none none metadatas ids = st
    ∧ MongoVectorCollection.query ef st none none n w wd = .error .invalidArgument :=
  ⟨rfl, rfl, rfl⟩

/-- Claim C8: on a collection with no bound embedding function, `add` with
`documents` but no `embeddings` raises `MissingDependency` (line 26) leaving
the collection unchanged, and `query` with `query_texts` raises
`MissingDependency` (line 60); in both cases the failure happens before the
store or any embedding call is reached. -/
theorem claim_C8 (gen : ℕ → String) (ds : List String) (metadatas : Option (List Metadata))
    (ids : Option (List String)) (st : List StoredDoc) (ts : List String)
    (qes : Option (List (List ℝ))) (n : ℕ) (w : Option Metadata) (wd : Option String) :
    MongoVectorCollection.add none gen (some ds) none metadatas ids = .error .missingDependency
    ∧ MongoVectorCollection.addState st none gen (some ds) none metadatas ids = st
    ∧ MongoVectorCollection.query none st (some ts) qes n w wd = .error .missingDependency :=
  ⟨rfl, rfl, rfl⟩

/-- Claim C9: with a deterministic embedding function and a deterministic
store scan order — both explicit in the embedding, where the collection is a
list in scan order and the embedding function a pure function — two
invocations of `query` with identical arguments against the unmodified
collection return identical ranked id sequences. -/
theorem claim_C9 (ef : Option (String → List ℝ)) (st : List StoredDoc)
    (qts : Option (List String)) (qes : Option (List (List ℝ))) (n : ℕ)
    (w : Option Metadata) (wd : Option String) :
    (MongoVectorCollection.query ef st qts qes n w wd).map QueryResults.ids
      = (MongoVectorCollection.query ef st qts qes n w wd).map QueryResults.ids := rfl

/-- Claim C10: `add` distinguishes an absent argument from an empty
sequence: with `documents = []` and `embeddings` absent the `is None` test
of line 20 passes, the embedding comprehension of line 27 runs zero times,
and the empty batch is handed to `insert_many`; no `InvalidArgument` is
raised for any binding of the embedding function. -/
theorem claim_C10 (f : String → List ℝ) (gen : ℕ → String)
    (ms : Option (List Metadata)) (ids : Option (List String)) :
    MongoVectorCollection.add (some f) gen (some []) none ms ids = .ok []
    ∧ encodedDocuments (some []) none = []
    ∧ ∀ ef, MongoVectorCollection.add ef gen (some []) none ms ids ≠ .error .invalidArgument := by
  have hok : ∀ g : String → List ℝ,
      MongoVectorCollection.add (some g) gen (some []) none ms ids = .ok [] := fun g => rfl
  refine ⟨hok f, rfl, ?_⟩
  intro ef
  cases ef with
  | none =>
    have h : MongoVectorCollection.add none gen (some []) none ms ids
        = .error .missingDependency := rfl
    rw [h]
    simp
  | some g =>
    rw [hok g]
    simp

/-- Witness for claim C10 at a concrete embedding function and generator. -/
theorem claim_C10_witness :
    MongoVectorCollection.add (some fun _ => [(1 : ℝ)]) (fun _ => "u") (some []) none none none
      = .ok []
    ∧ encodedDocuments (some []) none = []
    ∧ ∀ ef, MongoVectorCollection.add ef (fun _ => "u") (some []) none none none
        ≠ .error .invalidArgument :=
  claim_C10 (fun _ => [(1 : ℝ)]) (fun _ => "u") none none

end VectorDB
